import Mathlib

/-!
Shallow embedding of the frame-extraction utilities of
`get-video-frame-nextjs-v1` (files `src/lib/utils.ts`, `src/app/page.tsx`,
`src/components/video-player.tsx`).

JavaScript numbers are modelled as rationals (ℚ); the browser event loop is
modelled by passing the list of native callback firings (seek completions,
frame-presentation callbacks) explicitly to each routine.  A promise that has
not yet settled is `Option.none` / `PromiseState.pending`; canvas pixel output
(`canvas.toDataURL`) is abstracted by a snapshot function supplied by the
environment, since no property depends on pixel contents.

`HTMLVideoElement.HAVE_CURRENT_DATA` is the numeric readyState constant 2.
-/

/-- readyState constant `HAVE_CURRENT_DATA` of `HTMLVideoElement`. -/
def HAVE_CURRENT_DATA : ℕ := 2

/-- The `VideoFrameMetadata` record delivered to a `requestVideoFrameCallback`
callback (`utils.ts` lines 35-43). -/
structure VideoFrameMetadata where
  presentationTime : ℚ
  expectedDisplayTime : ℚ
  width : ℕ
  height : ℕ
  mediaTime : ℚ
  presentedFrames : ℕ
  processingDuration : ℚ
deriving DecidableEq, Repr

/-- The `FrameInfo` record (`utils.ts` lines 12-25): a captured frame's data
URL, timestamp, frame number and optional capture metadata. -/
structure FrameInfo where
  dataUrl : String
  timestamp : ℚ
  frameNumber : ℕ
  metadata : Option VideoFrameMetadata
deriving DecidableEq, Repr

/-- The record `{hours, minutes, seconds}` produced by the `TimeInput`
component and held in page state. -/
structure TimeRec where
  hours : ℚ
  minutes : ℚ
  seconds : ℚ
deriving DecidableEq, Repr

/-- Embedding of `timeToSeconds` (`utils.ts` lines 8-10). -/
def timeToSeconds (time : TimeRec) : ℚ :=
  time.hours * 3600 + time.minutes * 60 + time.seconds

/-- The options object of `extractFrames` (`utils.ts` lines 53-57); a field
that the caller omits is `none` and the function substitutes its default. -/
structure ExtractOptions where
  maxFrames : Option ℕ
  quality : Option ℚ
  frameInterval : Option ℚ
deriving DecidableEq, Repr

/-- The `seeked` handler loop of `extractFrames` (`utils.ts` lines 76-104).
`events` is the list of `seeked` firings, each carrying the video's
`readyState` at that moment; `frames` and `currentFrame` are the captured
state of the closure.  `none` means the promise never resolved on this event
sequence.  `snap` abstracts `canvas.toDataURL` as a function of the seek
target time. -/
def extractFramesLoop (totalFrames : ℤ) (startTime frameInterval : ℚ)
    (snap : ℚ → String) :
    List ℕ → List FrameInfo → ℕ → Option (List FrameInfo)
  | [], _, _ => none
  | readyState :: events, frames, currentFrame =>
    if totalFrames ≤ (currentFrame : ℤ) then
      some frames
    else if HAVE_CURRENT_DATA ≤ readyState then
      let timestamp := startTime + currentFrame * frameInterval / 1000
      let frames' := frames ++ [⟨snap timestamp, timestamp, currentFrame + 1, none⟩]
      extractFramesLoop totalFrames startTime frameInterval snap events frames'
        (currentFrame + 1)
    else
      extractFramesLoop totalFrames startTime frameInterval snap events frames
        currentFrame

/-- Embedding of `extractFrames` (`utils.ts` lines 48-106).  `ctx` records whether
`canvas.getContext("2d")` returned a context (the code resolves `[]` when it
is null).  The returned value is the settled value of the promise, `none`
when it stays pending. -/
def extractFrames (ctx : Bool) (startTime endTime : ℚ) (options : ExtractOptions)
    (snap : ℚ → String) (events : List ℕ) : Option (List FrameInfo) :=
  if ¬ctx then some [] else
  let maxFrames := options.maxFrames.getD 100
  let frameInterval := options.frameInterval.getD 100
  let duration := endTime - startTime
  let totalFrames : ℤ := min ⌊duration * 1000 / frameInterval⌋ (maxFrames : ℤ)
  extractFramesLoop totalFrames startTime frameInterval snap events [] 0

/-- The options object of `extractActualFrames` (`utils.ts` lines 114-118);
the `onProgress` callback is modelled by collecting every reported progress
value into a list, in order. -/
structure ActualOptions where
  maxFrames : Option ℕ
  quality : Option ℚ
deriving DecidableEq, Repr

/-- The `processFrame` callback loop of `extractActualFrames` (`utils.ts`
lines 133-177).  `events` is the list of `requestVideoFrameCallback`
firings in order, each carrying its `VideoFrameMetadata`; the state is the
closure's `frames` array and `frameCount`.  Returns the settled value of the
promise (`none` = still pending) paired with the list of progress values
passed to `onProgress`, in order. -/
def processFrameLoop (startTime endTime : ℚ) (maxFrames : ℕ)
    (snap : VideoFrameMetadata → String) :
    List VideoFrameMetadata → List FrameInfo → ℕ →
      Option (List FrameInfo) × List ℚ
  | [], _, _ => (none, [])
  | m :: events, frames, frameCount =>
    if m.mediaTime < startTime then
      processFrameLoop startTime endTime maxFrames snap events frames frameCount
    else if endTime < m.mediaTime ∨ maxFrames ≤ frameCount then
      (some frames, [])
    else
      let frames' := frames ++ [⟨snap m, m.mediaTime, m.presentedFrames, some m⟩]
      let frameCount' := frameCount + 1
      let progress := min ((m.mediaTime - startTime) / (endTime - startTime) * 100) 100
      if m.mediaTime ≤ endTime ∧ frameCount' < maxFrames then
        let rest := processFrameLoop startTime endTime maxFrames snap events
          frames' frameCount'
        (rest.1, progress :: rest.2)
      else
        (some frames', [progress])

/-- The warning string printed by `extractActualFrames` when
`requestVideoFrameCallback` is unsupported (`utils.ts` line 184). -/
def rvfcUnsupportedWarning : String :=
  "requestVideoFrameCallback not supported, falling back to time-based extraction"

/-- Embedding of `extractActualFrames` (`utils.ts` lines 109-189).  `ctx` is whether the
canvas yielded a 2d context; `supported` is whether
`requestVideoFrameCallback` exists on `HTMLVideoElement.prototype`.  Returns
the settled promise value (`none` = pending), the progress values reported,
and the console warnings emitted. -/
def extractActualFrames (ctx supported : Bool) (startTime endTime : ℚ)
    (options : ActualOptions) (snap : VideoFrameMetadata → String)
    (events : List VideoFrameMetadata) :
    Option (List FrameInfo) × List ℚ × List String :=
  if ¬ctx then (some [], [], []) else
  let maxFrames := options.maxFrames.getD 100
  if supported then
    let run := processFrameLoop startTime endTime maxFrames snap events [] 0
    (run.1, run.2, [])
  else
    (some [], [], [rvfcUnsupportedWarning])

/-- The result record of `analyzeVideoFrames` (`utils.ts` line 195). -/
structure AnalysisResult where
  totalFrames : ℤ
  duration : ℚ
  fps : ℚ
deriving DecidableEq, Repr

/-- Settled state of a promise that either resolves with a value or rejects
with an `Error` whose message is recorded. -/
inductive PromiseState (α : Type) where
  | pending : PromiseState α
  | resolved : α → PromiseState α
  | rejected : String → PromiseState α
deriving DecidableEq, Repr

/-- JavaScript truthiness test used by `countFrame` on its
`startTime : number | null` variable: `null` and `0` are falsy.  (`NaN`,
which has no rational counterpart, is folded into `none`.) -/
def jsFalsy : Option ℚ → Bool
  | none => true
  | some q => q = 0

/-- The `countFrame` callback loop of `analyzeVideoFrames` (`utils.ts` lines
207-237).  State: `frameCount`, and the closure variables `startTime` and
`lastTime` (`none` = JavaScript `null`).  Returns the settled promise value
paired with the reported progress values.  The `try/catch` is not modelled:
no statement of the loop body can throw in the embedding. -/
def countFrameLoop (videoDuration : ℚ) :
    List VideoFrameMetadata → ℕ → Option ℚ → Option ℚ →
      Option AnalysisResult × List ℚ
  | [], _, _, _ => (none, [])
  | m :: events, frameCount, startTime, lastTime =>
    let startTime' := if jsFalsy startTime then some m.mediaTime else startTime
    let lastTime' := some m.mediaTime
    let frameCount' := frameCount + 1
    let progress := min (m.mediaTime / videoDuration * 100) 100
    if m.mediaTime < videoDuration then
      let rest := countFrameLoop videoDuration events frameCount' startTime' lastTime'
      (rest.1, progress :: rest.2)
    else
      let duration := lastTime'.getD 0 - startTime'.getD 0
      let fps := (frameCount' : ℚ) / duration
      (some ⟨(frameCount' : ℤ), duration, fps⟩, [progress])

/-- Rejection message of `analyzeVideoFrames` for a falsy duration
(`utils.ts` line 198). -/
def noVideoMsg : String := "No video loaded or video duration is invalid"

/-- Embedding of `analyzeVideoFrames` (`utils.ts` lines 192-261).  `videoDuration` is
`video.duration` (`none` = `undefined`/`NaN`, both falsy); `supported` is
whether `requestVideoFrameCallback` exists.  Returns the promise state paired
with the progress values reported.  `Math.round` is `round` on ℚ (both round
half towards positive infinity). -/
def analyzeVideoFrames (videoDuration : Option ℚ) (supported : Bool)
    (events : List VideoFrameMetadata) : PromiseState AnalysisResult × List ℚ :=
  if jsFalsy videoDuration then
    (.rejected noVideoMsg, [])
  else
    let d := videoDuration.getD 0
    if supported then
      let run := countFrameLoop d events 0 none none
      match run.1 with
      | some r => (.resolved r, run.2)
      | none => (.pending, run.2)
    else
      (.resolved ⟨round (d * 30), d, 30⟩, [])

/-- Invalid-range alert text of both extraction handlers (`page.tsx` lines
58 and 87). -/
def rangeAlertMsg : String := "End time must be greater than start time"

/-- Observable outcome of one invocation of an extraction handler in
`page.tsx`: the alert raised (if any), whether the extraction function was
invoked, and the handler's frame-state array after the invocation. -/
structure HandlerOutcome where
  alert : Option String
  calledExtract : Bool
  frames : List FrameInfo
deriving DecidableEq, Repr

/-- Embedding of `handleExtractFrames` (`page.tsx` lines 48-75).  `hasVideo`/`hasCanvas`
record whether `document.querySelector` found the elements; `prior` is the
`extractedFrames` state before the call; the remaining arguments feed the
awaited `extractFrames` call (the page passes `frameInterval`,
`quality / 100` and `maxFrames: 100`).  When the extraction promise stays
pending the `await` never finishes and the state keeps its prior value. -/
def handleExtractFrames (hasVideo hasCanvas ctx : Bool)
    (startTime endTime : TimeRec) (frameInterval quality : ℚ)
    (prior : List FrameInfo) (snap : ℚ → String) (events : List ℕ) :
    HandlerOutcome :=
  if ¬(hasVideo && hasCanvas) then ⟨none, false, prior⟩ else
  let startTimeInSeconds := timeToSeconds startTime
  let endTimeInSeconds := timeToSeconds endTime
  if endTimeInSeconds ≤ startTimeInSeconds then
    ⟨some rangeAlertMsg, false, prior⟩
  else
    match extractFrames ctx startTimeInSeconds endTimeInSeconds
        ⟨some 100, some (quality / 100), some frameInterval⟩ snap events with
    | some frames => ⟨none, true, frames⟩
    | none => ⟨none, true, prior⟩

/-- Embedding of `handleExtractActualFrames` (`page.tsx` lines 77-108); `prior` is the
`actualFrames` state before the call.  The page passes `quality / 100`,
`maxFrames: 100` and `onProgress`. -/
def handleExtractActualFrames (hasVideo hasCanvas ctx supported : Bool)
    (startTime endTime : TimeRec) (quality : ℚ) (prior : List FrameInfo)
    (snap : VideoFrameMetadata → String) (events : List VideoFrameMetadata) :
    HandlerOutcome :=
  if ¬(hasVideo && hasCanvas) then ⟨none, false, prior⟩ else
  let startTimeInSeconds := timeToSeconds startTime
  let endTimeInSeconds := timeToSeconds endTime
  if endTimeInSeconds ≤ startTimeInSeconds then
    ⟨some rangeAlertMsg, false, prior⟩
  else
    match (extractActualFrames ctx supported startTimeInSeconds endTimeInSeconds
        ⟨some 100, some (quality / 100)⟩ snap events).1 with
    | some frames => ⟨none, true, frames⟩
    | none => ⟨none, true, prior⟩

/-- Embedding of `handleFrameCapture` (`page.tsx` lines 110-112): the state update
`setCapturedFrames(prev => [...prev, frameInfo])`. -/
def handleFrameCapture (prev : List FrameInfo) (frameInfo : FrameInfo) :
    List FrameInfo :=
  prev ++ [frameInfo]

/-- The analysis-related UI state of `page.tsx` after `handleAnalyzeVideo`
runs: `videoAnalysis`, `analysisError` and `isAnalyzing`. -/
structure AnalyzeOutcome where
  videoAnalysis : Option AnalysisResult
  analysisError : Option String
  isAnalyzing : Bool
deriving DecidableEq, Repr

/-- Embedding of `handleAnalyzeVideo` (`page.tsx` lines 121-143).  On a missing video
element it sets `analysisError` and returns; otherwise it clears the state,
awaits `analyzeVideoFrames` and stores the resolved analysis, or the
rejection's `Error` message, in state.  A pending promise leaves
`videoAnalysis`/`analysisError` cleared with `isAnalyzing` still true. -/
def handleAnalyzeVideo (hasVideo : Bool) (prior : AnalyzeOutcome)
    (videoDuration : Option ℚ) (supported : Bool)
    (events : List VideoFrameMetadata) : AnalyzeOutcome :=
  if ¬hasVideo then
    ⟨prior.videoAnalysis, some "No video element found", prior.isAnalyzing⟩
  else
  match (analyzeVideoFrames videoDuration supported events).1 with
  | .resolved a => ⟨some a, none, false⟩
  | .rejected msg => ⟨none, some msg, false⟩
  | .pending => ⟨none, none, true⟩


/-- The frames the `countFrame` loop counts before resolving: every event up
to and including the first whose `mediaTime` has reached `videoDuration`
(specification-side helper for stating what `analyzeVideoFrames` resolves
with). -/
def countedPrefix (videoDuration : ℚ) : List VideoFrameMetadata →
    List VideoFrameMetadata
  | [] => []
  | m :: events =>
    if m.mediaTime < videoDuration then m :: countedPrefix videoDuration events
    else [m]

/-- First truthy (nonzero) value of a list of JavaScript numbers, 0 when none
is truthy — the value `countFrame`'s repeated `if (!startTime) startTime =
metadata.mediaTime` assignment finally leaves in `startTime`
(specification-side helper). -/
def firstTruthy : List ℚ → ℚ
  | [] => 0
  | t :: ts => if t = 0 then firstTruthy ts else t

/-- C7: for every input record with hours, minutes and seconds,
`timeToSeconds` returns `hours * 3600 + minutes * 60 + seconds`. -/
theorem timeToSeconds_formula (t : TimeRec) :
    timeToSeconds t = t.hours * 3600 + t.minutes * 60 + t.seconds := rfl

/-- C4: whenever the end time converts to at most the start time, both
`handleExtractFrames` and `handleExtractActualFrames` raise the alert
"End time must be greater than start time", do not call their extraction
function, and leave the corresponding frame-state array unchanged. -/
theorem invalid_range_alerts_and_skips_extraction
    (ctx supported : Bool) (startTime endTime : TimeRec)
    (frameInterval quality : ℚ) (priorExtracted priorActual : List FrameInfo)
    (snap : ℚ → String) (events : List ℕ)
    (snap2 : VideoFrameMetadata → String) (events2 : List VideoFrameMetadata)
    (hle : timeToSeconds endTime ≤ timeToSeconds startTime) :
    handleExtractFrames true true ctx startTime endTime frameInterval quality
        priorExtracted snap events
      = ⟨some rangeAlertMsg, false, priorExtracted⟩
    ∧ handleExtractActualFrames true true ctx supported startTime endTime
        quality priorActual snap2 events2
      = ⟨some rangeAlertMsg, false, priorActual⟩
    ∧ rangeAlertMsg = "End time must be greater than start time" := by
  refine ⟨?_, ?_, rfl⟩
  · simp [handleExtractFrames, hle]
  · simp [handleExtractActualFrames, hle]

/-- Witness for C4 at start time 5 s and end time 3 s. -/
theorem invalid_range_alerts_and_skips_extraction_witness :
    timeToSeconds ⟨0, 0, 3⟩ ≤ timeToSeconds ⟨0, 0, 5⟩
    ∧ (handleExtractFrames true true true ⟨0, 0, 5⟩ ⟨0, 0, 3⟩ 100 92 []
          (fun _ => "") []
        = ⟨some rangeAlertMsg, false, []⟩
      ∧ handleExtractActualFrames true true true true ⟨0, 0, 5⟩ ⟨0, 0, 3⟩ 92 []
          (fun _ => "") []
        = ⟨some rangeAlertMsg, false, []⟩
      ∧ rangeAlertMsg = "End time must be greater than start time") :=
  ⟨by norm_num [timeToSeconds],
    invalid_range_alerts_and_skips_extraction true true ⟨0, 0, 5⟩ ⟨0, 0, 3⟩
      100 92 [] [] (fun _ => "") [] (fun _ => "") []
      (by norm_num [timeToSeconds])⟩

/-- C5: `analyzeVideoFrames` rejects with the message "No video loaded or
video duration is invalid" whenever `video.duration` is falsy (zero, or
`undefined`/`NaN` modelled as `none`), and `handleAnalyzeVideo` stores that
message in `analysisError` while `videoAnalysis` stays `null`. -/
theorem analyze_rejects_falsy_duration
    (videoDuration : Option ℚ) (supported : Bool)
    (events : List VideoFrameMetadata) (prior : AnalyzeOutcome)
    (hfalsy : jsFalsy videoDuration = true) :
    (analyzeVideoFrames videoDuration supported events).1
        = PromiseState.rejected noVideoMsg
    ∧ handleAnalyzeVideo true prior videoDuration supported events
        = ⟨none, some noVideoMsg, false⟩
    ∧ noVideoMsg = "No video loaded or video duration is invalid" := by
  refine ⟨?_, ?_, rfl⟩
  · simp [analyzeVideoFrames, hfalsy]
  · simp [handleAnalyzeVideo, analyzeVideoFrames, hfalsy]

/-- Witness for C5 at duration zero. -/
theorem analyze_rejects_falsy_duration_witness :
    jsFalsy (some 0) = true
    ∧ ((analyzeVideoFrames (some 0) true []).1
          = PromiseState.rejected noVideoMsg
      ∧ handleAnalyzeVideo true ⟨none, none, false⟩ (some 0) true []
          = ⟨none, some noVideoMsg, false⟩
      ∧ noVideoMsg = "No video loaded or video duration is invalid") :=
  ⟨by norm_num [jsFalsy],
    analyze_rejects_falsy_duration (some 0) true [] ⟨none, none, false⟩
      (by norm_num [jsFalsy])⟩

/-- C6: when `requestVideoFrameCallback` is unsupported,
`extractActualFrames` emits exactly the console warning about the missing
API and resolves with the empty array (no rejection, no frames, no progress
reports). -/
theorem extractActualFrames_unsupported_warns_empty
    (startTime endTime : ℚ) (options : ActualOptions)
    (snap : VideoFrameMetadata → String) (events : List VideoFrameMetadata) :
    extractActualFrames true false startTime endTime options snap events
      = (some [], [], [rvfcUnsupportedWarning])
    ∧ rvfcUnsupportedWarning
      = "requestVideoFrameCallback not supported, falling back to time-based extraction" :=
  ⟨by simp [extractActualFrames], rfl⟩

/-- Every resolution of the `seeked` loop in which each firing found
`readyState ≥ HAVE_CURRENT_DATA` yields exactly the outstanding
`(totalFrames - currentFrame)` additional frames. -/
theorem extractFramesLoop_length (totalFrames : ℤ) (startTime frameInterval : ℚ)
    (snap : ℚ → String) (events : List ℕ) :
    ∀ (frames : List FrameInfo) (c : ℕ) (r : List FrameInfo),
      (∀ e ∈ events, HAVE_CURRENT_DATA ≤ e) →
      extractFramesLoop totalFrames startTime frameInterval snap events frames c
        = some r →
      r.length = frames.length + (totalFrames - c).toNat := by
  induction events with
  | nil =>
    intro frames c r _ h
    simp [extractFramesLoop] at h
  | cons e events ih =>
    intro frames c r hgood h
    rw [extractFramesLoop] at h
    by_cases hc : totalFrames ≤ (c : ℤ)
    · rw [if_pos hc] at h
      obtain rfl : frames = r := by simpa using h
      omega
    · rw [if_neg hc, if_pos (hgood e (List.mem_cons_self e events))] at h
      have hlen := ih _ _ _ (fun x hx => hgood x (List.mem_cons_of_mem e hx)) h
      simp at hlen
      omega

/-- On a list of `totalFrames.toNat + 1` seek completions, each with
`readyState ≥ HAVE_CURRENT_DATA`, the `seeked` loop resolves. -/
theorem extractFramesLoop_replicate_resolves (totalFrames : ℤ)
    (startTime frameInterval : ℚ) (snap : ℚ → String) :
    ∀ (n : ℕ) (frames : List FrameInfo) (c : ℕ), totalFrames ≤ (c : ℤ) + n →
      ∃ r, extractFramesLoop totalFrames startTime frameInterval snap
        (List.replicate (n + 1) HAVE_CURRENT_DATA) frames c = some r := by
  intro n
  induction n with
  | zero =>
    intro frames c hle
    have hc : totalFrames ≤ (c : ℤ) := by omega
    exact ⟨frames, by rw [List.replicate_succ, extractFramesLoop, if_pos hc]⟩
  | succ n ih =>
    intro frames c hle
    by_cases hc : totalFrames ≤ (c : ℤ)
    · exact ⟨frames, by rw [List.replicate_succ, extractFramesLoop, if_pos hc]⟩
    · obtain ⟨r, hr⟩ := ih
        (frames ++ [⟨snap (startTime + c * frameInterval / 1000),
          startTime + c * frameInterval / 1000, c + 1, none⟩]) (c + 1) (by omega)
      refine ⟨r, ?_⟩
      rw [List.replicate_succ, extractFramesLoop, if_neg hc, if_pos le_rfl]
      exact hr

/-- The `seeked` loop only ever appends to its `frames` array: whatever it
resolves with extends the array it started from. -/
theorem extractFramesLoop_prefix (totalFrames : ℤ) (startTime frameInterval : ℚ)
    (snap : ℚ → String) (events : List ℕ) :
    ∀ (frames : List FrameInfo) (c : ℕ) (r : List FrameInfo),
      extractFramesLoop totalFrames startTime frameInterval snap events frames c
        = some r →
      frames <+: r := by
  induction events with
  | nil =>
    intro frames c r h
    simp [extractFramesLoop] at h
  | cons e events ih =>
    intro frames c r h
    rw [extractFramesLoop] at h
    by_cases hc : totalFrames ≤ (c : ℤ)
    · rw [if_pos hc] at h
      obtain rfl : frames = r := by simpa using h
      exact List.prefix_refl frames
    · rw [if_neg hc] at h
      by_cases he : HAVE_CURRENT_DATA ≤ e
      · rw [if_pos he] at h
        exact (List.prefix_append frames _).trans (ih _ _ _ h)
      · rw [if_neg he] at h
        exact ih _ _ _ h

/-- C1 (amended: the count formula is clamped below at 0): when every seek
completes with `readyState ≥ HAVE_CURRENT_DATA`, the array `extractFrames`
resolves with contains exactly
`max(0, min(⌊(endTime - startTime) * 1000 / frameInterval⌋, maxFrames))`
frames (defaults `frameInterval = 100`, `maxFrames = 100`), hence never more
than `maxFrames`; and the loop terminates once that many frames are captured
(one further seek completion suffices). -/
theorem extractFrames_resolves_min_count
    (startTime endTime : ℚ) (options : ExtractOptions) (snap : ℚ → String)
    (events : List ℕ) (r : List FrameInfo)
    (hgood : ∀ e ∈ events, HAVE_CURRENT_DATA ≤ e)
    (hr : extractFrames true startTime endTime options snap events = some r) :
    (r.length : ℤ)
        = max 0
            (min ⌊(endTime - startTime) * 1000 / options.frameInterval.getD 100⌋
              ((options.maxFrames.getD 100 : ℕ) : ℤ))
    ∧ r.length ≤ options.maxFrames.getD 100
    ∧ ∃ r', extractFrames true startTime endTime options snap
        (List.replicate
          ((min ⌊(endTime - startTime) * 1000 / options.frameInterval.getD 100⌋
            ((options.maxFrames.getD 100 : ℕ) : ℤ)).toNat + 1)
          HAVE_CURRENT_DATA) = some r' := by
  rw [extractFrames] at hr
  simp only [Bool.not_true, if_neg] at hr
  have hlen := extractFramesLoop_length _ _ _ _ _ _ _ _ hgood hr
  simp only [List.length_nil, Nat.cast_ofNat, CharP.cast_eq_zero, sub_zero,
    zero_add] at hlen
  refine ⟨by omega, by omega, ?_⟩
  obtain ⟨r', hr'⟩ := extractFramesLoop_replicate_resolves
    (min ⌊(endTime - startTime) * 1000 / options.frameInterval.getD 100⌋
      ((options.maxFrames.getD 100 : ℕ) : ℤ)) startTime
    (options.frameInterval.getD 100) snap
    ((min ⌊(endTime - startTime) * 1000 / options.frameInterval.getD 100⌋
      ((options.maxFrames.getD 100 : ℕ) : ℤ)).toNat) [] 0 (by omega)
  exact ⟨r', by rw [extractFrames]; simpa using hr'⟩

/-- Counterexample to C1 as stated: over the inverted range `[1, 0]` with
default options, the claimed count `min(⌊(0-1)·1000/100⌋, 100)` is `-10`,
yet the very first good seek completion resolves the promise with the empty
array — 0 frames, not the claimed value. -/
theorem extractFrames_negative_range_counterexample :
    extractFrames true 1 0 ⟨none, none, none⟩ (fun _ => "")
        [HAVE_CURRENT_DATA]
      = some []
    ∧ min ⌊((0 : ℚ) - 1) * 1000 / 100⌋ ((100 : ℕ) : ℤ) = -10
    ∧ (([] : List FrameInfo).length : ℤ) ≠ -10 := by
  refine ⟨?_, by norm_num, by norm_num⟩
  norm_num [extractFrames, extractFramesLoop, HAVE_CURRENT_DATA]

/-- Witness for C1's amended theorem: extracting over `[0, 1/5]` with default
options and three good seek completions resolves with exactly
`max(0, min(⌊200/100⌋, 100)) = 2` frames. -/
theorem extractFrames_resolves_min_count_witness :
    extractFrames true 0 (1/5) ⟨none, none, none⟩ (fun _ => "")
        (List.replicate 3 HAVE_CURRENT_DATA)
      = some [⟨"", 0, 1, none⟩, ⟨"", 1/10, 2, none⟩]
    ∧ ((([⟨"", 0, 1, none⟩, ⟨"", 1/10, 2, none⟩] : List FrameInfo).length : ℤ)
          = max 0 (min ⌊((1/5 : ℚ) - 0) * 1000 / 100⌋ ((100 : ℕ) : ℤ))
      ∧ ([⟨"", 0, 1, none⟩, ⟨"", 1/10, 2, none⟩] : List FrameInfo).length ≤ 100
      ∧ ∃ r', extractFrames true 0 (1/5) ⟨none, none, none⟩ (fun _ => "")
          (List.replicate
            ((min ⌊((1/5 : ℚ) - 0) * 1000 / 100⌋ ((100 : ℕ) : ℤ)).toNat + 1)
            HAVE_CURRENT_DATA) = some r') :=
  have h : extractFrames true 0 (1/5) ⟨none, none, none⟩ (fun _ => "")
      (List.replicate 3 HAVE_CURRENT_DATA)
      = some [⟨"", 0, 1, none⟩, ⟨"", 1/10, 2, none⟩] := by
    norm_num [extractFrames, extractFramesLoop, HAVE_CURRENT_DATA,
      List.replicate]
  ⟨h, extractFrames_resolves_min_count 0 (1/5) ⟨none, none, none⟩ (fun _ => "")
    (List.replicate 3 HAVE_CURRENT_DATA) [⟨"", 0, 1, none⟩, ⟨"", 1/10, 2, none⟩]
    (by decide) h⟩


/-- Invariant of the `seeked` loop: starting from a state whose array length
matches `currentFrame` and whose entries carry consecutive frame numbers and
interval-spaced timestamps, any resolution keeps that shape, and the resolved
length never exceeds `max totalFrames currentFrame`. -/
theorem extractFramesLoop_indexed (totalFrames : ℤ) (startTime frameInterval : ℚ)
    (snap : ℚ → String) (events : List ℕ) :
    ∀ (frames : List FrameInfo) (c : ℕ) (r : List FrameInfo),
      extractFramesLoop totalFrames startTime frameInterval snap events frames c
        = some r →
      frames.length = c →
      (∀ i (hi : i < frames.length), frames[i].frameNumber = i + 1 ∧
        frames[i].timestamp = startTime + i * frameInterval / 1000) →
      (r.length : ℤ) ≤ max totalFrames (c : ℤ)
      ∧ ∀ i (hi : i < r.length), r[i].frameNumber = i + 1 ∧
          r[i].timestamp = startTime + i * frameInterval / 1000 := by
  induction events with
  | nil =>
    intro frames c r h
    simp [extractFramesLoop] at h
  | cons e events ih =>
    intro frames c r h hlen hinv
    rw [extractFramesLoop] at h
    by_cases hc : totalFrames ≤ (c : ℤ)
    · rw [if_pos hc] at h
      obtain rfl : frames = r := by simpa using h
      exact ⟨by omega, hinv⟩
    · rw [if_neg hc] at h
      by_cases he : HAVE_CURRENT_DATA ≤ e
      · rw [if_pos he] at h
        have hinv' : ∀ (i : ℕ) (hi : i < (frames ++
            [(⟨snap (startTime + (c : ℚ) * frameInterval / 1000),
              startTime + (c : ℚ) * frameInterval / 1000, c + 1, none⟩ :
                FrameInfo)]).length),
            (frames ++ [(⟨snap (startTime + (c : ℚ) * frameInterval / 1000),
              startTime + (c : ℚ) * frameInterval / 1000, c + 1, none⟩ :
                FrameInfo)])[i].frameNumber = i + 1 ∧
            (frames ++ [(⟨snap (startTime + (c : ℚ) * frameInterval / 1000),
              startTime + (c : ℚ) * frameInterval / 1000, c + 1, none⟩ :
                FrameInfo)])[i].timestamp
              = startTime + i * frameInterval / 1000 := by
          intro i hi
          rcases Nat.lt_or_ge i frames.length with hlt | hge
          · rw [List.getElem_append_left hlt]
            exact hinv i hlt
          · have hieq : i = frames.length := by
              simp only [List.length_append, List.length_singleton] at hi
              omega
            rw [List.getElem_concat_length _ _ _ hieq]
            subst hieq
            rw [hlen]
            exact ⟨rfl, rfl⟩
        have hrec := ih _ _ _ h (by simp [hlen]) hinv'
        exact ⟨by omega, hrec.2⟩
      · rw [if_neg he] at h
        have hrec := ih _ _ _ h hlen hinv
        exact ⟨by omega, hrec.2⟩

/-- C9 (amended: requires a positive frame interval): in the array resolved
by `extractFrames`, the 1-indexed i-th frame has `frameNumber = i` and
`timestamp = startTime + (i-1) * frameInterval / 1000`; when
`frameInterval > 0` the timestamps are strictly increasing and every
timestamp is strictly below `endTime`. -/
theorem extractFrames_indexed_timestamps
    (startTime endTime : ℚ) (options : ExtractOptions) (snap : ℚ → String)
    (events : List ℕ) (r : List FrameInfo)
    (hfI : 0 < options.frameInterval.getD 100)
    (hr : extractFrames true startTime endTime options snap events = some r) :
    (∀ i (hi : i < r.length), r[i].frameNumber = i + 1
      ∧ r[i].timestamp
        = startTime + i * options.frameInterval.getD 100 / 1000)
    ∧ (∀ i j (hi : i < r.length) (hj : j < r.length), i < j →
        r[i].timestamp < r[j].timestamp)
    ∧ ∀ f ∈ r, f.timestamp < endTime := by
  rw [extractFrames] at hr
  simp only [Bool.not_true, if_neg] at hr
  obtain ⟨hbound, hidx⟩ := extractFramesLoop_indexed _ _ _ _ _ _ _ _ hr rfl
    (by intro i hi; exact absurd hi (by simp))
  refine ⟨hidx, ?_, ?_⟩
  · intro i j hi hj hij
    rw [(hidx i hi).2, (hidx j hj).2]
    have hcast : (i : ℚ) < j := by exact_mod_cast hij
    have h2 := mul_lt_mul_of_pos_right hcast hfI
    linarith
  · intro f hf
    obtain ⟨i, hi, rfl⟩ := List.getElem_of_mem hf
    rw [(hidx i hi).2]
    have hmin :
        min ⌊(endTime - startTime) * 1000 / options.frameInterval.getD 100⌋
          ((options.maxFrames.getD 100 : ℕ) : ℤ)
        ≤ ⌊(endTime - startTime) * 1000 / options.frameInterval.getD 100⌋ :=
      min_le_left _ _
    have hilt : ((i : ℤ)) + 1
        ≤ ⌊(endTime - startTime) * 1000 / options.frameInterval.getD 100⌋ := by
      omega
    have hle : ((i : ℚ)) + 1
        ≤ (endTime - startTime) * 1000 / options.frameInterval.getD 100 := by
      exact_mod_cast Int.le_floor.mp (by exact_mod_cast hilt)
    have hlt : (i : ℚ) * options.frameInterval.getD 100
        < (endTime - startTime) * 1000 :=
      (lt_div_iff hfI).mp (by linarith)
    linarith

/-- Counterexample to C9 as stated: with a negative `frameInterval` of -500,
extracting over the inverted range `[1, 0]` resolves two frames whose
timestamps are 1 and 1/2 — not strictly increasing, and not below the end
time 0. -/
theorem extractFrames_order_counterexample :
    extractFrames true 1 0 ⟨some 100, none, some (-500)⟩ (fun _ => "")
        [HAVE_CURRENT_DATA, HAVE_CURRENT_DATA, HAVE_CURRENT_DATA]
      = some [⟨"", 1, 1, none⟩, ⟨"", 1/2, 2, none⟩]
    ∧ ¬ ((1 : ℚ) < 1/2) ∧ ¬ ((1 : ℚ) < 0) := by
  refine ⟨?_, by norm_num, by norm_num⟩
  norm_num [extractFrames, extractFramesLoop, HAVE_CURRENT_DATA]

/-- Witness for C9's amended theorem on a default-options run over
`[0, 1/5]`. -/
theorem extractFrames_indexed_timestamps_witness :
    (0 : ℚ) < 100
    ∧ extractFrames true 0 (1/5) ⟨none, none, none⟩ (fun _ => "")
        (List.replicate 3 HAVE_CURRENT_DATA)
      = some [⟨"", 0, 1, none⟩, ⟨"", 1/10, 2, none⟩]
    ∧ ((∀ i (hi : i < ([⟨"", 0, 1, none⟩, ⟨"", 1/10, 2, none⟩]
          : List FrameInfo).length),
        ([⟨"", 0, 1, none⟩, ⟨"", 1/10, 2, none⟩]
          : List FrameInfo)[i].frameNumber = i + 1
        ∧ ([⟨"", 0, 1, none⟩, ⟨"", 1/10, 2, none⟩]
          : List FrameInfo)[i].timestamp = 0 + i * 100 / 1000)
      ∧ (∀ i j (hi : i < ([⟨"", 0, 1, none⟩, ⟨"", 1/10, 2, none⟩]
            : List FrameInfo).length)
          (hj : j < ([⟨"", 0, 1, none⟩, ⟨"", 1/10, 2, none⟩]
            : List FrameInfo).length), i < j →
          ([⟨"", 0, 1, none⟩, ⟨"", 1/10, 2, none⟩]
            : List FrameInfo)[i].timestamp
          < ([⟨"", 0, 1, none⟩, ⟨"", 1/10, 2, none⟩]
            : List FrameInfo)[j].timestamp)
      ∧ ∀ f ∈ ([⟨"", 0, 1, none⟩, ⟨"", 1/10, 2, none⟩] : List FrameInfo),
          f.timestamp < 1/5) :=
  have h : extractFrames true 0 (1/5) ⟨none, none, none⟩ (fun _ => "")
      (List.replicate 3 HAVE_CURRENT_DATA)
      = some [⟨"", 0, 1, none⟩, ⟨"", 1/10, 2, none⟩] := by
    norm_num [extractFrames, extractFramesLoop, HAVE_CURRENT_DATA,
      List.replicate]
  ⟨by norm_num, h,
    extractFrames_indexed_timestamps 0 (1/5) ⟨none, none, none⟩ (fun _ => "")
      (List.replicate 3 HAVE_CURRENT_DATA)
      [⟨"", 0, 1, none⟩, ⟨"", 1/10, 2, none⟩] (by norm_num) h⟩

/-- Invariant of the `processFrame` loop: starting from a state whose array
length matches `frameCount` and does not exceed `maxFrames`, and whose
entries have timestamps inside `[startTime, endTime]`, any resolution keeps
every timestamp inside `[startTime, endTime]` and at most `maxFrames`
frames. -/
theorem processFrameLoop_inv (startTime endTime : ℚ) (maxFrames : ℕ)
    (snap : VideoFrameMetadata → String) (events : List VideoFrameMetadata) :
    ∀ (frames : List FrameInfo) (frameCount : ℕ) (r : List FrameInfo),
      (processFrameLoop startTime endTime maxFrames snap events frames
        frameCount).1 = some r →
      frames.length = frameCount →
      frameCount ≤ maxFrames →
      (∀ f ∈ frames, startTime ≤ f.timestamp ∧ f.timestamp ≤ endTime) →
      (∀ f ∈ r, startTime ≤ f.timestamp ∧ f.timestamp ≤ endTime)
      ∧ r.length ≤ maxFrames := by
  induction events with
  | nil =>
    intro frames c r h
    simp [processFrameLoop] at h
  | cons m events ih =>
    intro frames c r h hlen hcle hinv
    rw [processFrameLoop] at h
    by_cases h1 : m.mediaTime < startTime
    · rw [if_pos h1] at h
      exact ih _ _ _ h hlen hcle hinv
    · rw [if_neg h1] at h
      by_cases h2 : endTime < m.mediaTime ∨ maxFrames ≤ c
      · rw [if_pos h2] at h
        obtain rfl : frames = r := by simpa using h
        exact ⟨hinv, by omega⟩
      · rw [if_neg h2] at h
        push_neg at h2
        have hmem : ∀ f ∈ frames ++
            [(⟨snap m, m.mediaTime, m.presentedFrames, some m⟩ : FrameInfo)],
            startTime ≤ f.timestamp ∧ f.timestamp ≤ endTime := by
          intro f hf
          rcases List.mem_append.mp hf with hf | hf
          · exact hinv f hf
          · obtain rfl : f = (⟨snap m, m.mediaTime, m.presentedFrames, some m⟩
                : FrameInfo) := by simpa using hf
            exact ⟨le_of_not_lt h1, h2.1⟩
        by_cases h3 : m.mediaTime ≤ endTime ∧ c + 1 < maxFrames
        · rw [if_pos h3] at h
          simp only at h
          exact ih _ _ _ h (by simp [hlen]) (by omega) hmem
        · rw [if_neg h3] at h
          obtain rfl : frames ++
              [(⟨snap m, m.mediaTime, m.presentedFrames, some m⟩ : FrameInfo)]
              = r := by simpa using h
          refine ⟨hmem, ?_⟩
          simp only [List.length_append, List.length_singleton]
          omega

/-- The `processFrame` loop only ever appends to its `frames` array: whatever
it resolves with extends the array it started from. -/
theorem processFrameLoop_prefix (startTime endTime : ℚ) (maxFrames : ℕ)
    (snap : VideoFrameMetadata → String) (events : List VideoFrameMetadata) :
    ∀ (frames : List FrameInfo) (frameCount : ℕ) (r : List FrameInfo),
      (processFrameLoop startTime endTime maxFrames snap events frames
        frameCount).1 = some r →
      frames <+: r := by
  induction events with
  | nil =>
    intro frames c r h
    simp [processFrameLoop] at h
  | cons m events ih =>
    intro frames c r h
    rw [processFrameLoop] at h
    by_cases h1 : m.mediaTime < startTime
    · rw [if_pos h1] at h
      exact ih _ _ _ h
    · rw [if_neg h1] at h
      by_cases h2 : endTime < m.mediaTime ∨ maxFrames ≤ c
      · rw [if_pos h2] at h
        obtain rfl : frames = r := by simpa using h
        exact List.prefix_refl frames
      · rw [if_neg h2] at h
        by_cases h3 : m.mediaTime ≤ endTime ∧ c + 1 < maxFrames
        · rw [if_pos h3] at h
          simp only at h
          exact (List.prefix_append frames _).trans (ih _ _ _ h)
        · rw [if_neg h3] at h
          obtain rfl : frames ++
              [(⟨snap m, m.mediaTime, m.presentedFrames, some m⟩ : FrameInfo)]
              = r := by simpa using h
          exact List.prefix_append frames _

/-- Every progress value the `processFrame` loop reports is at most 100, and
at least 0 whenever `startTime < endTime`. -/
theorem processFrameLoop_progress (startTime endTime : ℚ) (maxFrames : ℕ)
    (snap : VideoFrameMetadata → String) (events : List VideoFrameMetadata) :
    ∀ (frames : List FrameInfo) (frameCount : ℕ) (p : ℚ),
      p ∈ (processFrameLoop startTime endTime maxFrames snap events frames
        frameCount).2 →
      p ≤ 100 ∧ (startTime < endTime → 0 ≤ p) := by
  induction events with
  | nil =>
    intro frames c p hp
    simp [processFrameLoop] at hp
  | cons m events ih =>
    intro frames c p hp
    rw [processFrameLoop] at hp
    by_cases h1 : m.mediaTime < startTime
    · rw [if_pos h1] at hp
      exact ih _ _ _ hp
    · rw [if_neg h1] at hp
      by_cases h2 : endTime < m.mediaTime ∨ maxFrames ≤ c
      · rw [if_pos h2] at hp
        simp at hp
      · rw [if_neg h2] at hp
        have hrep : p = min ((m.mediaTime - startTime)
              / (endTime - startTime) * 100) 100
            ∨ p ∈ (processFrameLoop startTime endTime maxFrames snap events
              (frames ++ [(⟨snap m, m.mediaTime, m.presentedFrames, some m⟩
                : FrameInfo)]) (c + 1)).2 := by
          by_cases h3 : m.mediaTime ≤ endTime ∧ c + 1 < maxFrames
          · rw [if_pos h3] at hp
            simp only [List.mem_cons] at hp
            exact hp.imp id id
          · rw [if_neg h3] at hp
            exact Or.inl (by simpa using hp)
        rcases hrep with rfl | hp'
        · refine ⟨min_le_right _ _, fun hlt => le_min ?_ (by norm_num)⟩
          have hnum : 0 ≤ m.mediaTime - startTime := by linarith [not_lt.mp h1]
          have hden : 0 < endTime - startTime := by linarith
          positivity
        · exact ih _ _ _ hp'

/-- C2: when `extractActualFrames` resolves via the frame-callback path
(API supported, 2d context available), every resolved frame's timestamp
(`mediaTime`) lies in `[startTime, endTime]` and there are at most
`maxFrames` frames (default 100). -/
theorem extractActualFrames_timestamps_in_range
    (startTime endTime : ℚ) (options : ActualOptions)
    (snap : VideoFrameMetadata → String) (events : List VideoFrameMetadata)
    (r : List FrameInfo)
    (hr : (extractActualFrames true true startTime endTime options snap
      events).1 = some r) :
    (∀ f ∈ r, startTime ≤ f.timestamp ∧ f.timestamp ≤ endTime)
    ∧ r.length ≤ options.maxFrames.getD 100 := by
  rw [extractActualFrames] at hr
  simp only [Bool.not_true, if_neg, if_true] at hr
  exact processFrameLoop_inv _ _ _ _ _ _ _ _ hr rfl (Nat.zero_le _)
    (by intro f hf; exact absurd hf (by simp))

/-- Witness for C2 on a two-event run over `[0, 1]`. -/
theorem extractActualFrames_timestamps_in_range_witness :
    (extractActualFrames true true 0 1 ⟨none, none⟩ (fun _ => "")
        [⟨0, 0, 2, 2, 1/2, 7, 0⟩, ⟨0, 0, 2, 2, 2, 8, 0⟩]).1
      = some [⟨"", 1/2, 7, some ⟨0, 0, 2, 2, 1/2, 7, 0⟩⟩]
    ∧ ((∀ f ∈ ([⟨"", 1/2, 7, some ⟨0, 0, 2, 2, 1/2, 7, 0⟩⟩] : List FrameInfo),
        (0 : ℚ) ≤ f.timestamp ∧ f.timestamp ≤ 1)
      ∧ ([⟨"", 1/2, 7, some ⟨0, 0, 2, 2, 1/2, 7, 0⟩⟩]
          : List FrameInfo).length ≤ 100) :=
  have h : (extractActualFrames true true 0 1 ⟨none, none⟩ (fun _ => "")
      [⟨0, 0, 2, 2, 1/2, 7, 0⟩, ⟨0, 0, 2, 2, 2, 8, 0⟩]).1
      = some [⟨"", 1/2, 7, some ⟨0, 0, 2, 2, 1/2, 7, 0⟩⟩] := by
    norm_num [extractActualFrames, processFrameLoop]
  ⟨h, extractActualFrames_timestamps_in_range 0 1 ⟨none, none⟩ (fun _ => "")
    [⟨0, 0, 2, 2, 1/2, 7, 0⟩, ⟨0, 0, 2, 2, 2, 8, 0⟩]
    [⟨"", 1/2, 7, some ⟨0, 0, 2, 2, 1/2, 7, 0⟩⟩] h⟩

/-- C3: array order reflects capture order — `handleFrameCapture` appends the
new frame at the end of `capturedFrames` leaving earlier entries unchanged,
and both extraction loops only ever append to their `frames` arrays, so any
state they resolve from extends the earlier array as a prefix. -/
theorem capture_appends_preserve_order
    (prev : List FrameInfo) (f : FrameInfo)
    (totalFrames : ℤ) (startTime frameInterval : ℚ) (snap : ℚ → String)
    (events : List ℕ) (frames : List FrameInfo) (c : ℕ) (r : List FrameInfo)
    (h1 : extractFramesLoop totalFrames startTime frameInterval snap events
      frames c = some r)
    (startTime2 endTime : ℚ) (maxFrames : ℕ)
    (snap2 : VideoFrameMetadata → String)
    (events2 : List VideoFrameMetadata) (frames2 : List FrameInfo) (c2 : ℕ)
    (r2 : List FrameInfo)
    (h2 : (processFrameLoop startTime2 endTime maxFrames snap2 events2 frames2
      c2).1 = some r2) :
    handleFrameCapture prev f = prev ++ [f]
    ∧ (∀ i, i < prev.length → (handleFrameCapture prev f)[i]? = prev[i]?)
    ∧ (handleFrameCapture prev f)[prev.length]? = some f
    ∧ frames <+: r
    ∧ frames2 <+: r2 := by
  refine ⟨rfl, ?_, ?_, ?_, ?_⟩
  · intro i hi
    rw [handleFrameCapture, List.getElem?_append, if_pos hi]
  · rw [handleFrameCapture, List.getElem?_append, if_neg (lt_irrefl _)]
    simp
  · exact extractFramesLoop_prefix _ _ _ _ _ _ _ _ h1
  · exact processFrameLoop_prefix _ _ _ _ _ _ _ _ h2

/-- Witness for C3 on concrete one-step loop resolutions. -/
theorem capture_appends_preserve_order_witness :
    extractFramesLoop 0 0 100 (fun _ => "") [HAVE_CURRENT_DATA]
        [⟨"a", 0, 1, none⟩] 1 = some [⟨"a", 0, 1, none⟩]
    ∧ (processFrameLoop 0 1 100 (fun _ => "") [⟨0, 0, 2, 2, 2, 5, 0⟩]
        [⟨"b", 0, 1, none⟩] 1).1 = some [⟨"b", 0, 1, none⟩]
    ∧ (handleFrameCapture [⟨"a", 0, 1, none⟩] ⟨"c", 3, 9, none⟩
          = [⟨"a", 0, 1, none⟩] ++ [⟨"c", 3, 9, none⟩]
      ∧ (∀ i, i < ([⟨"a", 0, 1, none⟩] : List FrameInfo).length →
          (handleFrameCapture [⟨"a", 0, 1, none⟩] ⟨"c", 3, 9, none⟩)[i]?
            = ([⟨"a", 0, 1, none⟩] : List FrameInfo)[i]?)
      ∧ (handleFrameCapture [⟨"a", 0, 1, none⟩]
          ⟨"c", 3, 9, none⟩)[([⟨"a", 0, 1, none⟩] : List FrameInfo).length]?
          = some ⟨"c", 3, 9, none⟩
      ∧ ([⟨"a", 0, 1, none⟩] : List FrameInfo) <+: [⟨"a", 0, 1, none⟩]
      ∧ ([⟨"b", 0, 1, none⟩] : List FrameInfo) <+: [⟨"b", 0, 1, none⟩]) :=
  have ha : extractFramesLoop 0 0 100 (fun _ => "") [HAVE_CURRENT_DATA]
      [⟨"a", 0, 1, none⟩] 1 = some [⟨"a", 0, 1, none⟩] := by
    norm_num [extractFramesLoop]
  have hb : (processFrameLoop 0 1 100 (fun _ => "") [⟨0, 0, 2, 2, 2, 5, 0⟩]
      [⟨"b", 0, 1, none⟩] 1).1 = some [⟨"b", 0, 1, none⟩] := by
    norm_num [processFrameLoop]
  ⟨ha, hb,
    capture_appends_preserve_order [⟨"a", 0, 1, none⟩] ⟨"c", 3, 9, none⟩
      0 0 100 (fun _ => "") [HAVE_CURRENT_DATA] [⟨"a", 0, 1, none⟩] 1
      [⟨"a", 0, 1, none⟩] ha 0 1 100 (fun _ => "") [⟨0, 0, 2, 2, 2, 5, 0⟩]
      [⟨"b", 0, 1, none⟩] 1 [⟨"b", 0, 1, none⟩] hb⟩

/-- Every progress value the `countFrame` loop reports is at most 100, and at
least 0 whenever the video duration is positive and every event's
`mediaTime` is nonnegative. -/
theorem countFrameLoop_progress (videoDuration : ℚ) :
    ∀ (events : List VideoFrameMetadata) (c : ℕ) (s lastT : Option ℚ) (p : ℚ),
      p ∈ (countFrameLoop videoDuration events c s lastT).2 →
      p ≤ 100
      ∧ (0 < videoDuration → (∀ m ∈ events, 0 ≤ m.mediaTime) → 0 ≤ p) := by
  intro events
  induction events with
  | nil =>
    intro c s lastT p hp
    simp [countFrameLoop] at hp
  | cons m events ih =>
    intro c s lastT p hp
    rw [countFrameLoop] at hp
    have hhead : p = min (m.mediaTime / videoDuration * 100) 100
        ∨ p ∈ (countFrameLoop videoDuration events (c + 1)
          (if jsFalsy s then some m.mediaTime else s) (some m.mediaTime)).2 := by
      by_cases hlt : m.mediaTime < videoDuration
      · rw [if_pos hlt] at hp
        simp only [List.mem_cons] at hp
        exact hp.imp id id
      · rw [if_neg hlt] at hp
        exact Or.inl (by simpa using hp)
    rcases hhead with rfl | hp'
    · refine ⟨min_le_right _ _, fun hd hm => le_min ?_ (by norm_num)⟩
      have h0 : 0 ≤ m.mediaTime := hm m (List.mem_cons_self m events)
      positivity
    · have := ih _ _ _ _ hp'
      exact ⟨this.1, fun hd hm =>
        this.2 hd (fun x hx => hm x (List.mem_cons_of_mem m hx))⟩

/-- C8: every progress value `extractActualFrames` passes to `onProgress` is
clamped to at most 100; with `startTime < endTime` each value lies in
`[0, 100]`.  Likewise every value `analyzeVideoFrames` reports is at most
100, and lies in `[0, 100]` when the video duration is positive and every
callback's `mediaTime` is nonnegative. -/
theorem progress_values_clamped
    (ctx supported : Bool) (startTime endTime : ℚ) (options : ActualOptions)
    (snap : VideoFrameMetadata → String) (events : List VideoFrameMetadata)
    (videoDuration : Option ℚ) (supported2 : Bool)
    (events2 : List VideoFrameMetadata) :
    (∀ p ∈ (extractActualFrames ctx supported startTime endTime options snap
        events).2.1, p ≤ 100)
    ∧ (startTime < endTime →
        ∀ p ∈ (extractActualFrames ctx supported startTime endTime options
          snap events).2.1, 0 ≤ p ∧ p ≤ 100)
    ∧ (∀ p ∈ (analyzeVideoFrames videoDuration supported2 events2).2, p ≤ 100)
    ∧ ((∀ d, videoDuration = some d → 0 < d) →
        (∀ m ∈ events2, 0 ≤ m.mediaTime) →
        ∀ p ∈ (analyzeVideoFrames videoDuration supported2 events2).2,
          0 ≤ p ∧ p ≤ 100) := by
  have hA : ∀ p ∈ (extractActualFrames ctx supported startTime endTime options
      snap events).2.1, p ≤ 100 ∧ (startTime < endTime → 0 ≤ p) := by
    intro p hp
    cases ctx with
    | false => simp [extractActualFrames] at hp
    | true =>
      cases supported with
      | false => simp [extractActualFrames] at hp
      | true =>
        rw [extractActualFrames] at hp
        simp only [Bool.not_true, if_neg, if_true] at hp
        exact processFrameLoop_progress _ _ _ _ _ _ _ _ hp
  have hB : ∀ p ∈ (analyzeVideoFrames videoDuration supported2 events2).2,
      p ≤ 100 ∧ ((∀ d, videoDuration = some d → 0 < d) →
        (∀ m ∈ events2, 0 ≤ m.mediaTime) → 0 ≤ p) := by
    intro p hp
    by_cases hf : jsFalsy videoDuration
    · simp [analyzeVideoFrames, hf] at hp
    · cases supported2 with
      | false => simp [analyzeVideoFrames, hf] at hp
      | true =>
        have hp' : p ∈ (countFrameLoop (videoDuration.getD 0) events2 0
            none none).2 := by
          rcases hrun : countFrameLoop (videoDuration.getD 0) events2 0
            none none with ⟨res, reps⟩
          rw [analyzeVideoFrames] at hp
          simp only [hf, Bool.false_eq_true, if_false, if_true, hrun] at hp
          cases res <;> simpa using hp
        have hcl := countFrameLoop_progress _ _ _ _ _ _ hp'
        refine ⟨hcl.1, fun hpos hm => ?_⟩
        rcases videoDuration with _ | d
        · simp [jsFalsy] at hf
        · exact hcl.2 (by simpa using hpos d rfl) hm
  exact ⟨fun p hp => (hA p hp).1,
    fun hlt p hp => ⟨(hA p hp).2 hlt, (hA p hp).1⟩,
    fun p hp => (hB p hp).1,
    fun hpos hm p hp => ⟨(hB p hp).2 hpos hm, (hB p hp).1⟩⟩

/-- Witness for C8: concrete runs reporting progress 50 (extraction over
`[0, 1]` at mediaTime 1/2) and 100 (analysis of a duration-1 video). -/
theorem progress_values_clamped_witness :
    (0 : ℚ) < 1
    ∧ (∀ d, (some (1 : ℚ)) = some d → 0 < d)
    ∧ (∀ m ∈ [(⟨0, 0, 2, 2, 1, 3, 0⟩ : VideoFrameMetadata)], 0 ≤ m.mediaTime)
    ∧ (∀ p ∈ (extractActualFrames true true 0 1 ⟨none, none⟩ (fun _ => "")
        [⟨0, 0, 2, 2, 1/2, 7, 0⟩]).2.1, 0 ≤ p ∧ p ≤ 100)
    ∧ (∀ p ∈ (analyzeVideoFrames (some 1) true
        [⟨0, 0, 2, 2, 1, 3, 0⟩]).2, 0 ≤ p ∧ p ≤ 100) :=
  have h1 : (0 : ℚ) < 1 := by norm_num
  have h2 : ∀ d, (some (1 : ℚ)) = some d → 0 < d := by
    rintro d hd
    cases hd
    norm_num
  have h3 : ∀ m ∈ [(⟨0, 0, 2, 2, 1, 3, 0⟩ : VideoFrameMetadata)],
      0 ≤ m.mediaTime := by
    rintro m hm
    rcases List.mem_singleton.mp hm with rfl
    norm_num
  ⟨h1, h2, h3,
    (progress_values_clamped true true 0 1 ⟨none, none⟩ (fun _ => "")
      [⟨0, 0, 2, 2, 1/2, 7, 0⟩] (some 1) true
      [⟨0, 0, 2, 2, 1, 3, 0⟩]).2.1 h1,
    (progress_values_clamped true true 0 1 ⟨none, none⟩ (fun _ => "")
      [⟨0, 0, 2, 2, 1/2, 7, 0⟩] (some 1) true
      [⟨0, 0, 2, 2, 1, 3, 0⟩]).2.2.2 h2 h3⟩

/-- Resolution shape of the `countFrame` loop: when it resolves, it has
counted exactly the events up to and including the first whose `mediaTime`
reached the video duration; the resolved duration is that last counted
`mediaTime` minus the value the truthiness-guarded `startTime` assignment
settled on, and the resolved fps is the count divided by that duration. -/
theorem countFrameLoop_resolution (videoDuration : ℚ) :
    ∀ (events : List VideoFrameMetadata) (c : ℕ) (s lastT : Option ℚ)
      (r : AnalysisResult),
      (countFrameLoop videoDuration events c s lastT).1 = some r →
      countedPrefix videoDuration events ≠ []
      ∧ r.totalFrames = (c : ℤ) + (countedPrefix videoDuration events).length
      ∧ r.duration = ((countedPrefix videoDuration events).map
            (fun m => m.mediaTime)).getLast?.getD 0
          - (if jsFalsy s then
              firstTruthy ((countedPrefix videoDuration events).map
                (fun m => m.mediaTime))
            else s.getD 0)
      ∧ r.fps = (r.totalFrames : ℚ) / r.duration := by
  intro events
  induction events with
  | nil =>
    intro c s lastT r h
    simp [countFrameLoop] at h
  | cons m events ih =>
    intro c s lastT r h
    rw [countFrameLoop] at h
    by_cases hlt : m.mediaTime < videoDuration
    · rw [if_pos hlt] at h
      simp only at h
      obtain ⟨hne, htot, hdur, hfps⟩ := ih _ _ _ _ h
      have hcp : countedPrefix videoDuration (m :: events)
          = m :: countedPrefix videoDuration events := by
        rw [countedPrefix, if_pos hlt]
      have hmapne : (countedPrefix videoDuration events).map
          (fun m => m.mediaTime) ≠ [] := by
        simpa using hne
      obtain ⟨x, L, hxL⟩ := List.exists_cons_of_ne_nil hmapne
      refine ⟨by simp [hcp], ?_, ?_, hfps⟩
      · rw [hcp, htot]
        simp only [List.length_cons]
        push_cast
        ring
      · rw [hcp, hdur]
        simp only [List.map_cons, hxL, List.getLast?_cons_cons]
        congr 1
        cases hs : jsFalsy s with
        | false => simp [hs]
        | true =>
          by_cases hm0 : m.mediaTime = 0 <;>
            simp [hs, jsFalsy, hm0, firstTruthy]
    · rw [if_neg hlt] at h
      simp only at h
      obtain rfl := Option.some.inj h
      have hcp : countedPrefix videoDuration (m :: events) = [m] := by
        rw [countedPrefix, if_neg hlt]
      refine ⟨by simp [hcp], by simp [hcp], ?_, by push_cast; rfl⟩
      rw [hcp]
      simp only [List.map_cons, List.map_nil]
      congr 1
      cases hs : jsFalsy s with
      | false => simp [hs]
      | true =>
        by_cases hm0 : m.mediaTime = 0 <;>
          simp [hs, jsFalsy, hm0, firstTruthy]

/-- Counterexample to C10 as stated: analyzing a duration-1 video whose
frames present at mediaTimes 0, 1/2, 1 resolves `duration = 1/2` and
`fps = 6`, whereas the claim predicts duration `1 - 0 = 1` (last minus first
counted mediaTime) and fps `3 / (1 - 0) = 3`: the `!startTime` truthiness
guard re-assigns `startTime` past the first frame because its mediaTime 0 is
falsy. -/
theorem analyzeVideoFrames_duration_counterexample :
    (analyzeVideoFrames (some 1) true
        [⟨0, 0, 2, 2, 0, 1, 0⟩, ⟨0, 0, 2, 2, 1/2, 2, 0⟩,
          ⟨0, 0, 2, 2, 1, 3, 0⟩]).1
      = PromiseState.resolved ⟨3, 1/2, 6⟩
    ∧ ((1 : ℚ)/2 ≠ 1 - 0) ∧ ((6 : ℚ) ≠ 3 / (1 - 0)) := by
  refine ⟨?_, by norm_num, by norm_num⟩
  norm_num [analyzeVideoFrames, countFrameLoop, jsFalsy]

/-- C10 (amended): on the frame-callback path `analyzeVideoFrames` resolves
`totalFrames` equal to the number of counted frames, `duration` equal to the
last counted mediaTime minus the first nonzero counted mediaTime (0 when all
counted mediaTimes are zero — not necessarily the first counted frame's
mediaTime), and `fps = totalFrames / duration`; on the fallback path it
returns `fps = 30` and `totalFrames = round(duration * 30)`. -/
theorem analyzeVideoFrames_result_relations
    (d : ℚ) (events : List VideoFrameMetadata) (r : AnalysisResult)
    (hres : (analyzeVideoFrames (some d) true events).1
      = PromiseState.resolved r) :
    r.totalFrames = (countedPrefix d events).length
    ∧ r.duration = ((countedPrefix d events).map
          (fun m => m.mediaTime)).getLast?.getD 0
        - firstTruthy ((countedPrefix d events).map (fun m => m.mediaTime))
    ∧ r.fps = (r.totalFrames : ℚ) / r.duration
    ∧ ∀ d2 : ℚ, d2 ≠ 0 →
        analyzeVideoFrames (some d2) false events
          = (PromiseState.resolved ⟨round (d2 * 30), d2, 30⟩, []) := by
  by_cases hd : d = 0
  · simp [analyzeVideoFrames, jsFalsy, hd] at hres
  · have hfalse : jsFalsy (some d) = false := by simp [jsFalsy, hd]
    rw [analyzeVideoFrames] at hres
    simp only [hfalse, Bool.false_eq_true, if_false, Option.getD_some]
      at hres
    rcases hrun : countFrameLoop d events 0 none none with ⟨res, reps⟩
    rw [hrun] at hres
    cases res with
    | none => simp at hres
    | some a =>
      obtain rfl : a = r := by simpa using hres
      obtain ⟨hne, htot, hdur, hfps⟩ :=
        countFrameLoop_resolution d events 0 none none a (by rw [hrun])
      refine ⟨by simpa using htot, ?_, hfps, ?_⟩
      · simpa [jsFalsy] using hdur
      · intro d2 hd2
        simp [analyzeVideoFrames, jsFalsy, hd2]

/-- Witness for C10's amended theorem: two frames at mediaTimes 1/2 and 1 of
a duration-1 video resolve `⟨2, 1/2, 4⟩`, matching the amended formulas. -/
theorem analyzeVideoFrames_result_relations_witness :
    (analyzeVideoFrames (some 1) true
        [⟨0, 0, 2, 2, 1/2, 5, 0⟩, ⟨0, 0, 2, 2, 1, 6, 0⟩]).1
      = PromiseState.resolved ⟨2, 1/2, 4⟩
    ∧ ((⟨2, 1/2, 4⟩ : AnalysisResult).totalFrames
        = (countedPrefix 1
            [⟨0, 0, 2, 2, 1/2, 5, 0⟩, ⟨0, 0, 2, 2, 1, 6, 0⟩]).length
      ∧ (⟨2, 1/2, 4⟩ : AnalysisResult).duration
        = ((countedPrefix 1
              [⟨0, 0, 2, 2, 1/2, 5, 0⟩, ⟨0, 0, 2, 2, 1, 6, 0⟩]).map
            (fun m => m.mediaTime)).getLast?.getD 0
          - firstTruthy ((countedPrefix 1
              [⟨0, 0, 2, 2, 1/2, 5, 0⟩, ⟨0, 0, 2, 2, 1, 6, 0⟩]).map
            (fun m => m.mediaTime))
      ∧ (⟨2, 1/2, 4⟩ : AnalysisResult).fps
        = (((⟨2, 1/2, 4⟩ : AnalysisResult).totalFrames : ℚ)
          / (⟨2, 1/2, 4⟩ : AnalysisResult).duration)
      ∧ ∀ d2 : ℚ, d2 ≠ 0 →
          analyzeVideoFrames (some d2) false
              [⟨0, 0, 2, 2, 1/2, 5, 0⟩, ⟨0, 0, 2, 2, 1, 6, 0⟩]
            = (PromiseState.resolved ⟨round (d2 * 30), d2, 30⟩, [])) :=
  have h : (analyzeVideoFrames (some 1) true
      [⟨0, 0, 2, 2, 1/2, 5, 0⟩, ⟨0, 0, 2, 2, 1, 6, 0⟩]).1
      = PromiseState.resolved ⟨2, 1/2, 4⟩ := by
    norm_num [analyzeVideoFrames, countFrameLoop, jsFalsy]
  ⟨h, analyzeVideoFrames_result_relations 1
    [⟨0, 0, 2, 2, 1/2, 5, 0⟩, ⟨0, 0, 2, 2, 1, 6, 0⟩] ⟨2, 1/2, 4⟩ h⟩
